import Mathlib

/-!
Shallow embedding of the web search acquisition and caching layer
(src/lib/search.ts, class WebSearchClient) together with the JavaScript
string builtins it relies on.  External effects are modelled by an
environment oracle (`Env`): the outcome of each outbound HTTP fetch,
already parsed into the candidate result blocks that the cheerio
selectors of each provider would produce, the current clock, and fault
flags for the persistent cache.  JavaScript exceptions are modelled by
`Except Unit`; the persistent cache (prisma table searchCache, keyed by
the unique column query) is an association list threaded through the
calls.  The list of issued fetches is returned as an event trace so that
statements such as "the second call issues no provider fetch" are
expressible.
-/

namespace WebSearch

/-- Model of the String.prototype.trim builtin: strip leading and
trailing whitespace characters from both ends of the string. -/
def jsTrim (s : String) : String :=
  String.mk (((s.data.dropWhile Char.isWhitespace).reverse.dropWhile
    Char.isWhitespace).reverse)

/-- Model of the String.prototype.toLowerCase builtin (ASCII letters). -/
def jsToLowerCase (s : String) : String :=
  String.mk (s.data.map Char.toLower)

/-- Model of the String.prototype.startsWith builtin. -/
def jsStartsWith (s pre : String) : Bool :=
  List.isPrefixOf pre.data s.data

/-- Characters left unescaped by encodeURIComponent: ASCII alphanumerics
and - _ . ! ~ * ( ) together with the apostrophe (code 39). -/
def isURIUnreserved (c : Char) : Bool :=
  c.isAlphanum || c == '-' || c == '_' || c == '.' || c == '!' || c == '~' ||
    c == '*' || c.toNat == 39 || c == '(' || c == ')'

/-- Upper-case hexadecimal digit for a value below 16. -/
def hexDigitUpper (n : Nat) : Char :=
  if n < 10 then Char.ofNat (48 + n) else Char.ofNat (55 + n)

/-- UTF-8 encoding of one character, as a list of byte values. -/
def utf8Bytes (c : Char) : List Nat :=
  let n := c.toNat
  if n < 128 then [n]
  else if n < 2048 then [192 + n / 64, 128 + n % 64]
  else if n < 65536 then [224 + n / 4096, 128 + (n / 64) % 64, 128 + n % 64]
  else [240 + n / 262144, 128 + (n / 4096) % 64, 128 + (n / 64) % 64,
    128 + n % 64]

/-- Percent-escape of one byte value, e.g. 38 becomes the three
characters of "%26". -/
def percentEncodeByte (b : Nat) : List Char :=
  ['%', hexDigitUpper (b / 16), hexDigitUpper (b % 16)]

/-- Encoding of one character under encodeURIComponent: unreserved
characters stand for themselves, every other character is replaced by
the percent-escapes of its UTF-8 bytes. -/
def encodeURIComponentChar (c : Char) : List Char :=
  if isURIUnreserved c then [c]
  else (utf8Bytes c).flatMap percentEncodeByte

/-- Model of the encodeURIComponent builtin. -/
def encodeURIComponent (s : String) : String :=
  String.mk (s.data.flatMap encodeURIComponentChar)

/-- Test for a hexadecimal digit character. -/
def isHexDigit (c : Char) : Bool :=
  c.isDigit || (65 ≤ c.toNat && c.toNat ≤ 70) || (97 ≤ c.toNat && c.toNat ≤ 102)

/-- Numeric value of a hexadecimal digit character. -/
def hexVal (c : Char) : Nat :=
  if c.isDigit then c.toNat - 48
  else if c.toNat ≤ 70 then c.toNat - 55
  else c.toNat - 87

/-- Percent-decoding over a character list: each %XX escape (two
hexadecimal digits required) is replaced by the character with code XX,
every other character stands for itself; a malformed escape fails, as
decodeURIComponent throws URIError.  Multi-byte UTF-8 escape sequences
are decoded byte per byte, a simplification that is faithful on the
ASCII range. -/
def percentDecodeList : List Char → Option (List Char)
  | [] => some []
  | c :: rest =>
      if c == '%' then
        match rest with
        | [] => none
        | [_] => none
        | h :: l :: rest2 =>
            if isHexDigit h && isHexDigit l then
              (percentDecodeList rest2).map
                (fun t => Char.ofNat (16 * hexVal h + hexVal l) :: t)
            else none
      else (percentDecodeList rest).map (fun t => c :: t)

/-- Model of the decodeURIComponent builtin; `none` models a thrown
URIError. -/
def decodeURIComponent (s : String) : Option String :=
  (percentDecodeList s.data).map String.mk

/-- Result value type from src/types (interface SearchResult). -/
structure SearchResult where
  title : String
  url : String
  snippet : String
  source : String
deriving Repr, DecidableEq

/-- Candidate result block as seen through the cheerio selectors of a
provider: the text of the title element, the optional href attribute of
the link element, and the text of the snippet element. -/
structure Block where
  titleText : String
  hrefAttr : Option String
  snippetText : String
deriving Repr, DecidableEq

/-- Outcome of one outbound fetch plus HTML parse: a transport-level
failure (fetch or body read threw), or a response carrying its ok flag
and the candidate blocks found by the provider selectors. -/
inductive FetchOutcome where
  | transportError
  | response (ok : Bool) (blocks : List Block)
deriving Repr, DecidableEq

/-- Row of the searchCache table: the stored result list and the expiry
timestamp in milliseconds. -/
structure CacheEntry where
  results : List SearchResult
  expiresAt : Nat
deriving Repr, DecidableEq

/-- Persistent cache store, an association list keyed by the normalized
query; the prisma schema declares the key column unique. -/
abbrev Store := List (String × CacheEntry)

/-- Lookup of prisma searchCache.findUnique on the key column. -/
def findUnique (st : Store) (key : String) : Option CacheEntry :=
  (st.find? (fun p => p.1 == key)).map Prod.snd

/-- Deletion of the row with the given key (prisma delete by id of the
row that findUnique returned; the key column is unique). -/
def deleteKey (st : Store) (key : String) : Store :=
  st.filter (fun p => !(p.1 == key))

/-- Upsert of prisma searchCache.upsert: replace the row if present,
create it otherwise. -/
def upsert (st : Store) (key : String) (e : CacheEntry) : Store :=
  deleteKey st key ++ [(key, e)]

/-- Trace entry: one outbound HTTP fetch, recorded with its URL. -/
inductive NetworkEvent where
  | fetch (url : String)
deriving Repr, DecidableEq

/-- Environment oracle: the clock (Date.now in milliseconds), the
outcome of a fetch to each URL, and fault flags for the cache store
(a prisma call that throws). -/
structure Env where
  now : Nat
  fetchOutcome : String → FetchOutcome
  cacheReadFails : Bool
  cacheWriteFails : Bool

namespace WebSearchClient

/-- Field cacheExpiry of WebSearchClient: 24 hours in milliseconds. -/
def cacheExpiry : Nat := 24 * 60 * 60 * 1000

/-- Search URL built by searchDuckDuckGo (line 32). -/
def searchDuckDuckGoURL (query : String) : String :=
  "https://html.duckduckgo.com/html/?q=" ++ encodeURIComponent query

/-- Body of the each callback of searchDuckDuckGo (lines 49-68) for one
block: trim the title and snippet texts, read the href attribute with
fallback to the empty string, keep the block only when all three are
non-empty, rewriting a protocol-relative href to https. -/
def ddgProcessBlock (b : Block) : Option SearchResult :=
  let title := jsTrim b.titleText
  let url := b.hrefAttr.getD ""
  let snippet := jsTrim b.snippetText
  if title ≠ "" ∧ url ≠ "" ∧ snippet ≠ "" then
    some { title := title,
           url := if jsStartsWith url "//" then "https:" ++ url else url,
           snippet := snippet,
           source := "DuckDuckGo" }
  else none

/-- Each-loop of searchDuckDuckGo: the callback returns false as soon as
the running element index reaches maxResults, which stops the
iteration; qualifying results are appended in document order. -/
def ddgLoop (maxResults : Nat) : Nat → List Block → List SearchResult →
    List SearchResult
  | _, [], acc => acc
  | index, b :: rest, acc =>
      if maxResults ≤ index then acc
      else ddgLoop maxResults (index + 1) rest (acc ++ (ddgProcessBlock b).toList)

/-- Try-block of searchDuckDuckGo (lines 30-70): build the URL, fetch,
throw on a non-ok status, parse and extract. -/
def searchDuckDuckGoBody (env : Env) (query : String) (maxResults : Nat) :
    Except Unit (List SearchResult) :=
  match env.fetchOutcome (searchDuckDuckGoURL query) with
  | .transportError => .error ()
  | .response ok blocks =>
      if ok then .ok (ddgLoop maxResults 0 blocks [])
      else .error ()

/-- Regex match /\url?q=([^&]+)/ of line 116: find the first occurrence
of the literal /url?q= that is followed by at least one character other
than the ampersand, and capture the maximal such run. -/
def urlQCapture : List Char → Option (List Char)
  | [] => none
  | c :: rest =>
      if List.isPrefixOf "/url?q=".data (c :: rest) then
        match List.takeWhile (fun d => d != '&') (List.drop 7 (c :: rest)) with
        | [] => urlQCapture rest
        | d :: ds => some (d :: ds)
      else urlQCapture rest

/-- Redirect-URL cleanup of fallbackSearch (lines 113-120): when the
href begins with /url?q=, the captured target is percent-decoded; when
the regex finds no capture, the href is kept as is.  The decode may
throw. -/
def googleCleanUrl (href : String) : Except Unit String :=
  if jsStartsWith href "/url?q=" then
    match urlQCapture href.data with
    | some cap =>
        match decodeURIComponent (String.mk cap) with
        | some decoded => .ok decoded
        | none => .error ()
    | none => .ok href
  else .ok href

/-- Body of the each callback of fallbackSearch (lines 100-129) for one
block; the cleanup step may throw, which aborts the whole parse. -/
def googleProcessBlock (b : Block) : Except Unit (Option SearchResult) :=
  let title := jsTrim b.titleText
  let href := b.hrefAttr.getD ""
  let snippet := jsTrim b.snippetText
  if title ≠ "" ∧ href ≠ "" ∧ snippet ≠ "" then
    match googleCleanUrl href with
    | .ok cleanUrl =>
        .ok (some { title := title,
                    url := cleanUrl,
                    snippet := snippet,
                    source := "Google" })
    | .error e => .error e
  else .ok none

/-- Each-loop of fallbackSearch, stopping once the element index reaches
maxResults. -/
def googleLoop (maxResults : Nat) : Nat → List Block → List SearchResult →
    Except Unit (List SearchResult)
  | _, [], acc => .ok acc
  | index, b :: rest, acc =>
      if maxResults ≤ index then .ok acc
      else
        match googleProcessBlock b with
        | .error e => .error e
        | .ok none => googleLoop maxResults (index + 1) rest acc
        | .ok (some r) => googleLoop maxResults (index + 1) rest (acc ++ [r])

/-- Search terms of fallbackSearch line 82: query.split(must be a space
character).join(plus sign), which replaces every space by a plus. -/
def plusJoin (query : String) : String :=
  String.mk (query.data.map (fun c => if c == ' ' then '+' else c))

/-- Search URL built by fallbackSearch (line 83). -/
def fallbackSearchURL (query : String) (maxResults : Nat) : String :=
  "https://www.google.com/search?q=" ++ plusJoin query ++ "&num=" ++
    toString maxResults

/-- Try-block of fallbackSearch (lines 80-131): build the URL, fetch,
return the empty list on a non-ok status, otherwise parse and extract
(which may throw through decodeURIComponent). -/
def fallbackSearchBody (env : Env) (query : String) (maxResults : Nat) :
    Except Unit (List SearchResult) :=
  match env.fetchOutcome (fallbackSearchURL query maxResults) with
  | .transportError => .error ()
  | .response ok blocks =>
      if ok then googleLoop maxResults 0 blocks []
      else .ok []

/-- Method fallbackSearch (lines 79-136): the catch converts any thrown
error into an empty result list.  The second component records the
fetches issued. -/
def fallbackSearch (env : Env) (query : String) (maxResults : Nat) :
    List SearchResult × List NetworkEvent :=
  match fallbackSearchBody env query maxResults with
  | .ok rs => (rs, [NetworkEvent.fetch (fallbackSearchURL query maxResults)])
  | .error _ => ([], [NetworkEvent.fetch (fallbackSearchURL query maxResults)])

/-- Method searchDuckDuckGo (lines 29-77): the catch falls back to
fallbackSearch on any thrown error. -/
def searchDuckDuckGo (env : Env) (query : String) (maxResults : Nat) :
    List SearchResult × List NetworkEvent :=
  match searchDuckDuckGoBody env query maxResults with
  | .ok rs => (rs, [NetworkEvent.fetch (searchDuckDuckGoURL query)])
  | .error _ =>
      let fb := fallbackSearch env query maxResults
      (fb.1, NetworkEvent.fetch (searchDuckDuckGoURL query) :: fb.2)

/-- Method getCachedResults (lines 138-160): look the lower-cased query
up; a live entry is returned, an entry at or past its expiry is deleted
and reported absent; any cache fault is caught and reported absent. -/
def getCachedResults (env : Env) (st : Store) (query : String) :
    Option (List SearchResult) × Store :=
  if env.cacheReadFails then (none, st)
  else
    let key := jsToLowerCase query
    match findUnique st key with
    | some cached =>
        if env.now < cached.expiresAt then (some cached.results, st)
        else (none, deleteKey st key)
    | none => (none, st)

/-- Method cacheResults (lines 162-181): upsert the row for the
lower-cased query with expiry now plus cacheExpiry; a cache fault is
caught and ignored. -/
def cacheResults (env : Env) (st : Store) (query : String)
    (results : List SearchResult) : Store :=
  if env.cacheWriteFails then st
  else upsert st (jsToLowerCase query) ⟨results, env.now + cacheExpiry⟩

/-- Try-block of search (lines 9-22): consult the cache, return a hit,
otherwise fetch through searchDuckDuckGo, write the cache and return. -/
def searchBody (env : Env) (st : Store) (query : String) (maxResults : Nat) :
    Except Unit (List SearchResult × Store × List NetworkEvent) :=
  let c := getCachedResults env st query
  match c.1 with
  | some rs => .ok (rs, c.2, [])
  | none =>
      let fetched := searchDuckDuckGo env query maxResults
      .ok (fetched.1, cacheResults env c.2 query fetched.1, fetched.2)

/-- Method search (lines 8-27): the catch converts any thrown error into
an empty result list. -/
def search (env : Env) (st : Store) (query : String) (maxResults : Nat := 5) :
    List SearchResult × Store × List NetworkEvent :=
  match searchBody env st query maxResults with
  | .ok out => out
  | .error _ => ([], st, [])

end WebSearchClient

end WebSearch

/-! Basic facts about the string models and the cache store. -/

namespace WebSearch

theorem mk_ne_empty_of_ne_nil {l : List Char} (h : l ≠ []) :
    String.mk l ≠ "" := by
  intro hc
  exact h (congrArg String.data hc)

theorem https_append_ne_empty (u : String) : "https:" ++ u ≠ "" := by
  intro hc
  have hd := congrArg String.data hc
  simp [String.data] at hd

theorem percentDecodeList_ne_nil :
    ∀ {l : List Char} {t : List Char}, l ≠ [] →
      percentDecodeList l = some t → t ≠ [] := by
  intro l t hne hdec
  cases l with
  | nil => exact absurd rfl hne
  | cons c rest =>
      rw [percentDecodeList.eq_def] at hdec
      dsimp only at hdec
      split at hdec
      · cases rest with
        | nil => simp at hdec
        | cons h rest1 =>
            cases rest1 with
            | nil => simp at hdec
            | cons l2 rest2 =>
                dsimp only at hdec
                split at hdec
                · rcases Option.map_eq_some'.mp hdec with ⟨t2, _, ht⟩
                  simp [← ht]
                · cases hdec
      · rcases Option.map_eq_some'.mp hdec with ⟨t2, _, ht⟩
        simp [← ht]

theorem decodeURIComponent_ne_empty {s : String} {t : String}
    (hne : s ≠ "") (hdec : decodeURIComponent s = some t) : t ≠ "" := by
  rcases Option.map_eq_some'.mp hdec with ⟨l, hl, ht⟩
  have hsl : s.data ≠ [] := by
    intro hc
    exact hne (by cases s; simp_all)
  exact ht ▸ mk_ne_empty_of_ne_nil (percentDecodeList_ne_nil hsl hl)

namespace WebSearchClient

theorem urlQCapture_ne_nil :
    ∀ {l cap : List Char}, urlQCapture l = some cap → cap ≠ [] := by
  intro l
  induction l with
  | nil => intro cap h; rw [urlQCapture] at h; cases h
  | cons c rest ih =>
      intro cap h
      rw [urlQCapture] at h
      split at h
      · split at h
        · exact ih h
        · cases h; simp
      · exact ih h

theorem googleCleanUrl_ne_empty {href u : String} (hne : href ≠ "")
    (h : googleCleanUrl href = Except.ok u) : u ≠ "" := by
  rw [googleCleanUrl] at h
  split at h
  · split at h
    next cap hcap =>
      split at h
      next decoded hdec =>
        cases h
        exact decodeURIComponent_ne_empty
          (mk_ne_empty_of_ne_nil (urlQCapture_ne_nil hcap)) hdec
      next => cases h
    next => cases h; exact hne
  · cases h; exact hne

theorem find?_deleteKey (st : Store) (k : String) :
    (deleteKey st k).find? (fun p => p.1 == k) = none := by
  rw [List.find?_eq_none]
  intro p hp
  rw [deleteKey, List.mem_filter] at hp
  simpa using hp.2

theorem findUnique_deleteKey (st : Store) (k : String) :
    findUnique (deleteKey st k) k = none := by
  rw [findUnique, find?_deleteKey]
  rfl

theorem findUnique_upsert (st : Store) (k : String) (e : CacheEntry) :
    findUnique (upsert st k e) k = some e := by
  rw [findUnique, upsert, List.find?_append, find?_deleteKey]
  simp

end WebSearchClient

end WebSearch

/-! Characterizations of the extraction loops and of the orchestrator
control paths. -/

namespace WebSearch

namespace WebSearchClient

/-- Result of one fallback block under a parse that completes: the kept
result, if any. -/
def googleBlockResult (b : Block) : Option SearchResult :=
  match googleProcessBlock b with
  | .ok o => o
  | .error _ => none

theorem ddgLoop_eq (maxResults : Nat) :
    ∀ (blocks : List Block) (index : Nat) (acc : List SearchResult),
      ddgLoop maxResults index blocks acc =
        acc ++ (blocks.take (maxResults - index)).filterMap ddgProcessBlock := by
  intro blocks
  induction blocks with
  | nil => intro i acc; simp [ddgLoop]
  | cons b rest ih =>
      intro i acc
      rw [ddgLoop]
      by_cases h : maxResults ≤ i
      · rw [if_pos h, Nat.sub_eq_zero_of_le h]
        simp
      · rw [if_neg h, ih (i + 1)]
        have h2 : maxResults - i = (maxResults - (i + 1)) + 1 := by omega
        rw [h2, List.take_succ_cons, List.filterMap_cons]
        cases hp : ddgProcessBlock b <;> simp [hp]

theorem googleLoop_ok_eq (maxResults : Nat) :
    ∀ (blocks : List Block) (index : Nat) (acc rs : List SearchResult),
      googleLoop maxResults index blocks acc = Except.ok rs →
        rs = acc ++ (blocks.take (maxResults - index)).filterMap
          googleBlockResult := by
  intro blocks
  induction blocks with
  | nil =>
      intro i acc rs h
      rw [googleLoop] at h
      cases h
      simp
  | cons b rest ih =>
      intro i acc rs h
      rw [googleLoop] at h
      by_cases hle : maxResults ≤ i
      · rw [if_pos hle] at h
        cases h
        rw [Nat.sub_eq_zero_of_le hle]
        simp
      · rw [if_neg hle] at h
        have h2 : maxResults - i = (maxResults - (i + 1)) + 1 := by omega
        rw [h2, List.take_succ_cons, List.filterMap_cons]
        cases hp : googleProcessBlock b with
        | error e => rw [hp] at h; cases h
        | ok o =>
            rw [hp] at h
            cases o with
            | none =>
                dsimp only at h
                rw [googleBlockResult, hp]
                exact ih (i + 1) acc rs h
            | some r =>
                dsimp only at h
                rw [googleBlockResult, hp]
                have := ih (i + 1) (acc ++ [r]) rs h
                simpa using this

theorem ddgLoop_length_le (maxResults : Nat) (blocks : List Block) :
    (ddgLoop maxResults 0 blocks []).length ≤ maxResults := by
  rw [ddgLoop_eq]
  simp only [List.nil_append]
  calc ((blocks.take (maxResults - 0)).filterMap ddgProcessBlock).length
      ≤ (blocks.take (maxResults - 0)).length := List.length_filterMap_le _ _
    _ ≤ maxResults - 0 := List.length_take_le _ _
    _ ≤ maxResults := Nat.sub_le _ _

theorem ddgLoop_all_skipped (maxResults : Nat) (blocks : List Block)
    (h : ∀ b ∈ blocks, ddgProcessBlock b = none) :
    ddgLoop maxResults 0 blocks [] = [] := by
  rw [ddgLoop_eq]
  simp only [List.nil_append]
  rw [List.filterMap_eq_nil_iff]
  intro b hb
  exact h b (List.mem_of_mem_take hb)

theorem googleLoop_all_skipped (maxResults : Nat) :
    ∀ (blocks : List Block) (index : Nat) (acc : List SearchResult),
      (∀ b ∈ blocks, googleProcessBlock b = Except.ok none) →
      googleLoop maxResults index blocks acc = Except.ok acc := by
  intro blocks
  induction blocks with
  | nil => intro i acc _; rw [googleLoop]
  | cons b rest ih =>
      intro i acc h
      rw [googleLoop]
      by_cases hle : maxResults ≤ i
      · rw [if_pos hle]
      · rw [if_neg hle, h b (by simp)]
        exact ih (i + 1) acc (fun b hb => h b (by simp [hb]))

end WebSearchClient

end WebSearch

namespace WebSearch

namespace WebSearchClient

theorem getCachedResults_live {env : Env} {st : Store} {q : String}
    {e : CacheEntry} (hrf : env.cacheReadFails = false)
    (hfind : findUnique st (jsToLowerCase q) = some e)
    (hlive : env.now < e.expiresAt) :
    getCachedResults env st q = (some e.results, st) := by
  rw [getCachedResults, hrf]
  simp only [Bool.false_eq_true, if_neg, not_false_eq_true]
  rw [hfind]
  simp [hlive]

theorem getCachedResults_expired {env : Env} {st : Store} {q : String}
    {e : CacheEntry} (hrf : env.cacheReadFails = false)
    (hfind : findUnique st (jsToLowerCase q) = some e)
    (hexp : e.expiresAt ≤ env.now) :
    getCachedResults env st q = (none, deleteKey st (jsToLowerCase q)) := by
  rw [getCachedResults, hrf]
  simp only [Bool.false_eq_true, if_neg, not_false_eq_true]
  rw [hfind]
  simp [Nat.not_lt_of_le hexp]

theorem search_of_hit {env : Env} {st : Store} {q : String} {rs : List SearchResult}
    (n : Nat) (h : (getCachedResults env st q).1 = some rs) :
    search env st q n = (rs, (getCachedResults env st q).2, []) := by
  rw [search, searchBody, h]

theorem search_of_miss {env : Env} {st : Store} {q : String}
    (n : Nat) (h : (getCachedResults env st q).1 = none) :
    search env st q n =
      ((searchDuckDuckGo env q n).1,
       cacheResults env (getCachedResults env st q).2 q
         (searchDuckDuckGo env q n).1,
       (searchDuckDuckGo env q n).2) := by
  rw [search, searchBody, h]

theorem searchDuckDuckGo_trace_head (env : Env) (q : String) (n : Nat) :
    (searchDuckDuckGo env q n).2.head? =
      some (NetworkEvent.fetch (searchDuckDuckGoURL q)) := by
  rw [searchDuckDuckGo]
  cases searchDuckDuckGoBody env q n <;> rfl

theorem searchBody_always_ok (env : Env) (st : Store) (q : String) (n : Nat) :
    searchBody env st q n = Except.ok (search env st q n) := by
  rw [search]
  cases h : (getCachedResults env st q).1 <;> rw [searchBody, h]

end WebSearchClient

end WebSearch

/-! Character-level facts about the percent-encoder. -/

namespace WebSearch

theorem char_toNat_lt (c : Char) : c.toNat < 1114112 := by
  rcases c.valid with h | ⟨_, h2⟩
  · exact Nat.lt_trans h (by norm_num)
  · exact h2

theorem hexDigitUpper_isHexDigit : ∀ m : Fin 16, isHexDigit (hexDigitUpper m.val) = true := by decide

theorem utf8Bytes_lt_256 (c : Char) : ∀ b ∈ utf8Bytes c, b < 256 := by
  intro b hb
  have hval : c.toNat < 1114112 := char_toNat_lt c
  simp only [utf8Bytes] at hb
  split at hb
  · simp at hb; omega
  · split at hb
    · next h1 h2 =>
        have hd : c.toNat / 64 < 32 := Nat.div_lt_of_lt_mul (by omega)
        have hm : c.toNat % 64 < 64 := Nat.mod_lt _ (by omega)
        simp at hb
        rcases hb with hb | hb <;> omega
    · split at hb
      · next h1 h2 h3 =>
          have hd : c.toNat / 4096 < 16 := Nat.div_lt_of_lt_mul (by omega)
          have hm1 : (c.toNat / 64) % 64 < 64 := Nat.mod_lt _ (by omega)
          have hm2 : c.toNat % 64 < 64 := Nat.mod_lt _ (by omega)
          simp at hb
          rcases hb with hb | hb | hb <;> omega
      · next h1 h2 h3 =>
          have hd : c.toNat / 262144 < 5 := Nat.div_lt_of_lt_mul (by omega)
          have hm1 : (c.toNat / 4096) % 64 < 64 := Nat.mod_lt _ (by omega)
          have hm2 : (c.toNat / 64) % 64 < 64 := Nat.mod_lt _ (by omega)
          have hm3 : c.toNat % 64 < 64 := Nat.mod_lt _ (by omega)
          simp at hb
          rcases hb with hb | hb | hb | hb <;> omega

theorem percentEncodeByte_chars {b : Nat} (hb : b < 256) :
    ∀ c ∈ percentEncodeByte b, c = '%' ∨ isHexDigit c = true := by
  intro c hc
  have hd : b / 16 < 16 := Nat.div_lt_of_lt_mul (by omega)
  have hm : b % 16 < 16 := Nat.mod_lt _ (by omega)
  rw [percentEncodeByte] at hc
  simp at hc
  rcases hc with hc | hc | hc
  · exact Or.inl hc
  · exact Or.inr (hc ▸ hexDigitUpper_isHexDigit ⟨b / 16, hd⟩)
  · exact Or.inr (hc ▸ hexDigitUpper_isHexDigit ⟨b % 16, hm⟩)

theorem encodeURIComponent_chars (s : String) :
    ∀ c ∈ (encodeURIComponent s).data,
      isURIUnreserved c = true ∨ c = '%' ∨ isHexDigit c = true := by
  intro c hc
  rw [encodeURIComponent] at hc
  rcases List.mem_flatMap.mp hc with ⟨a, _, hca⟩
  rw [encodeURIComponentChar] at hca
  split at hca
  · next h =>
      rw [List.mem_singleton] at hca
      exact Or.inl (hca ▸ h)
  · rcases List.mem_flatMap.mp hca with ⟨b, hbmem, hcb⟩
    rcases percentEncodeByte_chars (utf8Bytes_lt_256 a b hbmem) c hcb with h | h
    · exact Or.inr (Or.inl h)
    · exact Or.inr (Or.inr h)

end WebSearch

/-! Facts about the URL cleanup paths and about the fields of extracted
results. -/

namespace WebSearch

theorem takeWhile_until_amp :
    ∀ (t r : List Char), (∀ c ∈ t, c ≠ '&') →
      List.takeWhile (fun d => d != '&') (t ++ '&' :: r) = t := by
  intro t
  induction t with
  | nil => intro r _; simp
  | cons c cs ih =>
      intro r h
      have hc : c ≠ '&' := h c (by simp)
      simp only [List.cons_append, List.takeWhile_cons]
      simp only [bne_iff_ne, ne_eq, hc, not_false_eq_true, if_true,
        reduceIte]
      rw [ih r (fun d hd => h d (by simp [hd]))]

namespace WebSearchClient

theorem urlQCapture_wrapper (target rest : List Char)
    (hne : target ≠ []) (hamp : ∀ c ∈ target, c ≠ '&') :
    urlQCapture ("/url?q=".data ++ (target ++ '&' :: rest)) = some target := by
  have hdata : "/url?q=".data = ['/', 'u', 'r', 'l', '?', 'q', '='] := rfl
  rw [hdata]
  simp only [List.cons_append, List.nil_append]
  rw [urlQCapture]
  have hpre : List.isPrefixOf "/url?q=".data
      ('/' :: 'u' :: 'r' :: 'l' :: '?' :: 'q' :: '=' ::
        (target ++ '&' :: rest)) = true := by
    rw [hdata]
    exact List.isPrefixOf_iff_prefix.mpr
      ⟨target ++ '&' :: rest, by simp⟩
  rw [if_pos hpre]
  have hdrop : List.drop 7
      ('/' :: 'u' :: 'r' :: 'l' :: '?' :: 'q' :: '=' ::
        (target ++ '&' :: rest)) = target ++ '&' :: rest := rfl
  rw [hdrop, takeWhile_until_amp target rest hamp]
  cases target with
  | nil => exact absurd rfl hne
  | cons d ds => rfl

theorem googleCleanUrl_wrapper {target rest : List Char} {decoded : String}
    (hne : target ≠ []) (hamp : ∀ c ∈ target, c ≠ '&')
    (hdec : decodeURIComponent (String.mk target) = some decoded) :
    googleCleanUrl (String.mk ("/url?q=".data ++ (target ++ '&' :: rest))) =
      Except.ok decoded := by
  rw [googleCleanUrl]
  have hs : jsStartsWith
      (String.mk ("/url?q=".data ++ (target ++ '&' :: rest))) "/url?q=" = true := by
    rw [jsStartsWith]
    exact List.isPrefixOf_iff_prefix.mpr ⟨target ++ '&' :: rest, rfl⟩
  rw [if_pos hs]
  have hd : (String.mk ("/url?q=".data ++ (target ++ '&' :: rest))).data =
      "/url?q=".data ++ (target ++ '&' :: rest) := rfl
  rw [hd, urlQCapture_wrapper target rest hne hamp]
  dsimp only
  rw [hdec]

theorem startsWith_slashslash_ne_empty {u : String}
    (h : jsStartsWith u "//" = true) : u ≠ "" := by
  intro hc
  subst hc
  exact absurd h (by decide)

theorem ddgProcessBlock_fields {b : Block} {r : SearchResult}
    (h : ddgProcessBlock b = some r) :
    r.title ≠ "" ∧ r.url ≠ "" ∧ r.snippet ≠ "" ∧ r.source = "DuckDuckGo" := by
  simp only [ddgProcessBlock] at h
  split at h
  next hcond =>
    obtain ⟨ht, hu, hs⟩ := hcond
    cases h
    refine ⟨ht, ?_, hs, rfl⟩
    dsimp only
    split
    · exact https_append_ne_empty _
    · exact hu
  next => cases h

theorem googleProcessBlock_fields {b : Block} {r : SearchResult}
    (h : googleProcessBlock b = Except.ok (some r)) :
    r.title ≠ "" ∧ r.url ≠ "" ∧ r.snippet ≠ "" ∧ r.source = "Google" := by
  simp only [googleProcessBlock] at h
  split at h
  next hcond =>
    obtain ⟨ht, hu, hs⟩ := hcond
    split at h
    next u hcu =>
      injection h with h1
      injection h1 with h2
      subst h2
      exact ⟨ht, googleCleanUrl_ne_empty hu hcu, hs, rfl⟩
    next => cases h
  next =>
    injection h with h1
    cases h1

theorem googleBlockResult_some {b : Block} {r : SearchResult}
    (h : googleBlockResult b = some r) :
    googleProcessBlock b = Except.ok (some r) := by
  rw [googleBlockResult] at h
  split at h
  next o heq => rw [heq, h]
  next => cases h

theorem searchDuckDuckGoBody_ok_mem {env : Env} {q : String} {n : Nat}
    {rs : List SearchResult} {r : SearchResult}
    (hok : searchDuckDuckGoBody env q n = Except.ok rs) (h : r ∈ rs) :
    r.title ≠ "" ∧ r.url ≠ "" ∧ r.snippet ≠ "" := by
  rw [searchDuckDuckGoBody] at hok
  split at hok
  · cases hok
  · split at hok
    · cases hok
      rw [ddgLoop_eq] at h
      simp only [List.nil_append] at h
      rcases List.mem_filterMap.mp h with ⟨b, _, hb⟩
      obtain ⟨h1, h2, h3, _⟩ := ddgProcessBlock_fields hb
      exact ⟨h1, h2, h3⟩
    · cases hok

theorem fallbackSearchBody_ok_mem {env : Env} {q : String} {n : Nat}
    {rs : List SearchResult} {r : SearchResult}
    (hok : fallbackSearchBody env q n = Except.ok rs) (h : r ∈ rs) :
    r.title ≠ "" ∧ r.url ≠ "" ∧ r.snippet ≠ "" := by
  rw [fallbackSearchBody] at hok
  split at hok
  · cases hok
  · split at hok
    · have := googleLoop_ok_eq n _ 0 [] rs hok
      rw [this] at h
      simp only [List.nil_append] at h
      rcases List.mem_filterMap.mp h with ⟨b, _, hb⟩
      obtain ⟨h1, h2, h3, _⟩ := googleProcessBlock_fields (googleBlockResult_some hb)
      exact ⟨h1, h2, h3⟩
    · cases hok
      cases h

theorem mem_fallbackSearch_fields {env : Env} {q : String} {n : Nat}
    {r : SearchResult} (h : r ∈ (fallbackSearch env q n).1) :
    r.title ≠ "" ∧ r.url ≠ "" ∧ r.snippet ≠ "" := by
  rw [fallbackSearch] at h
  split at h
  next rs hb => exact fallbackSearchBody_ok_mem hb h
  next => cases h

theorem mem_searchDuckDuckGo_fields {env : Env} {q : String} {n : Nat}
    {r : SearchResult} (h : r ∈ (searchDuckDuckGo env q n).1) :
    r.title ≠ "" ∧ r.url ≠ "" ∧ r.snippet ≠ "" := by
  rw [searchDuckDuckGo] at h
  split at h
  next rs hb => exact searchDuckDuckGoBody_ok_mem hb h
  next => exact mem_fallbackSearch_fields h

end WebSearchClient

end WebSearch

/-! Claim theorems. -/

namespace WebSearch

namespace WebSearchClient

/-- Environment in which every fetch fails at the transport level. -/
def envBothFail : Env := ⟨0, fun _ => FetchOutcome.transportError, false, false⟩

/-- C1: for every query and every maxResults at least 1, search never
propagates an error to its caller: its try-block always returns
normally, and when the cache misses and both the Primary and the
Fallback provider fail, the call resolves to the empty sequence. -/
theorem search_fail_soft (env : Env) (st : Store) (q : String) (n : Nat)
    (_hn : 1 ≤ n) :
    searchBody env st q n = Except.ok (search env st q n) ∧
    ((getCachedResults env st q).1 = none →
      searchDuckDuckGoBody env q n = Except.error () →
      fallbackSearchBody env q n = Except.error () →
      (search env st q n).1 = []) := by
  refine ⟨searchBody_always_ok env st q n, ?_⟩
  intro hmiss hp hf
  rw [search_of_miss n hmiss]
  dsimp only
  rw [searchDuckDuckGo, hp]
  dsimp only
  rw [fallbackSearch, hf]

/-- Witness for C1 at an environment where both providers fail. -/
theorem search_fail_soft_witness :
    (search envBothFail [] "rust" 5).1 = [] :=
  (search_fail_soft envBothFail [] "rust" 5 (by decide)).2 rfl rfl rfl

/-- C2 counterexample: with maxResults 2 and three blocks of which the
first is malformed (blank title), two qualifying blocks are present in
the document, yet the loop returns only one result: the limit counts
scanned blocks, not collected candidates, so the claim that the result
has exactly maxResults elements fails. -/
theorem extraction_scan_cap_cex :
    (([⟨" ", some "u0", "s0"⟩, ⟨"t1", some "u1", "s1"⟩,
       ⟨"t2", some "u2", "s2"⟩] : List Block).filter
        (fun b => (ddgProcessBlock b).isSome)).length = 2 ∧
    (ddgLoop 2 0 [⟨" ", some "u0", "s0"⟩, ⟨"t1", some "u1", "s1"⟩,
       ⟨"t2", some "u2", "s2"⟩] []).length = 1 := by decide

/-- C2 (amended): the extraction loop of each provider stops after
scanning maxResults blocks, not after collecting maxResults qualifying
candidates: the output is exactly the qualifying blocks among the first
maxResults blocks of the document, in document order — hence at most
maxResults results, and possibly fewer than maxResults even when at
least maxResults qualifying blocks are present further on. -/
theorem extraction_first_blocks (n : Nat) (blocks : List Block) :
    ddgLoop n 0 blocks [] = (blocks.take n).filterMap ddgProcessBlock ∧
    (ddgLoop n 0 blocks []).length ≤ n ∧
    (∀ rs, googleLoop n 0 blocks [] = Except.ok rs →
      rs = (blocks.take n).filterMap googleBlockResult ∧ rs.length ≤ n) := by
  refine ⟨?_, ddgLoop_length_le n blocks, ?_⟩
  · rw [ddgLoop_eq]
    simp
  · intro rs h
    have he := googleLoop_ok_eq n blocks 0 [] rs h
    simp only [Nat.sub_zero, List.nil_append] at he
    refine ⟨he, ?_⟩
    rw [he]
    calc ((blocks.take n).filterMap googleBlockResult).length
        ≤ (blocks.take n).length := List.length_filterMap_le _ _
      _ ≤ n := List.length_take_le _ _

/-- Witness for C2 (amended) on a concrete fallback parse. -/
theorem extraction_first_blocks_witness :
    ([⟨"t", "u", "s", "Google"⟩] : List SearchResult) =
      (([⟨"t", some "u", "s"⟩] : List Block).take 2).filterMap
        googleBlockResult ∧
    ([⟨"t", "u", "s", "Google"⟩] : List SearchResult).length ≤ 2 :=
  (extraction_first_blocks 2 [⟨"t", some "u", "s"⟩]).2.2
    [⟨"t", "u", "s", "Google"⟩] rfl

/-- Environment with a live clock at 1000 ms and failing transport. -/
def envCaseKey : Env := ⟨1000, fun _ => FetchOutcome.transportError, false, false⟩

/-- Store holding one live entry under the key rust (expiry 2000 ms). -/
def stCaseKey : Store := [("rust", ⟨[⟨"t", "u", "s", "DuckDuckGo"⟩], 2000⟩)]

/-- C3 counterexample: the cache key is not trimmed: a query that
differs from a stored key only by leading whitespace misses the live
entry and issues a provider fetch, although the trimmed lower-cased
texts coincide. -/
theorem cache_key_trim_cex :
    jsToLowerCase (jsTrim " rust") = jsToLowerCase (jsTrim "rust") ∧
    (getCachedResults envCaseKey stCaseKey "rust").1 =
      some [⟨"t", "u", "s", "DuckDuckGo"⟩] ∧
    (getCachedResults envCaseKey stCaseKey " rust").1 = none ∧
    (search envCaseKey stCaseKey " rust" 5).2.2 ≠ [] := by decide

/-- C3 (amended): both the cache read and the cache write key on the
lower-cased (but not trimmed) query, so two calls whose texts differ
only in letter case address the same slot and the second call within
the TTL window issues no provider fetch; queries differing in
surrounding whitespace address different slots. -/
theorem cache_key_lowercase_only (env env2 : Env) (st : Store)
    (q1 q2 : String) (n m : Nat)
    (hkey : jsToLowerCase q1 = jsToLowerCase q2)
    (hwf : env.cacheWriteFails = false)
    (hmiss : (getCachedResults env st q1).1 = none)
    (hrf2 : env2.cacheReadFails = false)
    (httl : env2.now < env.now + cacheExpiry) :
    (search env2 (search env st q1 n).2.1 q2 m).1 = (search env st q1 n).1 ∧
    (search env2 (search env st q1 n).2.1 q2 m).2.2 = [] := by
  have hwrite : cacheResults env (getCachedResults env st q1).2 q1
      (searchDuckDuckGo env q1 n).1 =
      upsert (getCachedResults env st q1).2 (jsToLowerCase q1)
        ⟨(searchDuckDuckGo env q1 n).1, env.now + cacheExpiry⟩ := by
    rw [cacheResults, hwf]
    simp
  have hfind : findUnique (upsert (getCachedResults env st q1).2
      (jsToLowerCase q1)
      ⟨(searchDuckDuckGo env q1 n).1, env.now + cacheExpiry⟩)
      (jsToLowerCase q2) =
      some ⟨(searchDuckDuckGo env q1 n).1, env.now + cacheExpiry⟩ := by
    rw [← hkey]
    exact findUnique_upsert _ _ _
  have hlive := getCachedResults_live
    (e := ⟨(searchDuckDuckGo env q1 n).1, env.now + cacheExpiry⟩)
    hrf2 hfind httl
  rw [search_of_miss n hmiss]
  dsimp only
  rw [hwrite, search_of_hit m (by rw [hlive]), hlive]
  exact ⟨rfl, rfl⟩

/-- Environment whose single fetch yields one qualifying block. -/
def envGoodBlock : Env :=
  ⟨0, fun _ => FetchOutcome.response true [⟨"t", some "u", "s"⟩], false, false⟩

/-- Environment for a second call at 1 ms with working cache read. -/
def envSecondCall : Env := ⟨1, fun _ => FetchOutcome.transportError, false, false⟩

/-- Witness for C3 (amended): a call for Rust followed by one for rust. -/
theorem cache_key_lowercase_only_witness :
    (search envSecondCall (search envGoodBlock [] "Rust" 5).2.1 "rust" 3).1 =
      (search envGoodBlock [] "Rust" 5).1 ∧
    (search envSecondCall (search envGoodBlock [] "Rust" 5).2.1 "rust" 3).2.2 =
      [] :=
  cache_key_lowercase_only envGoodBlock envSecondCall [] "Rust" "rust" 5 3
    (by decide) rfl rfl rfl (by decide)

/-- Environment whose clock (3000 ms) is past the stored expiry. -/
def envPastExpiry : Env := ⟨3000, fun _ => FetchOutcome.transportError, false, false⟩

/-- C4: a cache read that finds the stored entry past its expiry
deletes the entry and reports absent rather than returning the stale
payload, and the search call then proceeds to a provider fetch. -/
theorem expired_entry_read_deletes (env : Env) (st : Store) (q : String)
    (e : CacheEntry) (n : Nat)
    (hrf : env.cacheReadFails = false)
    (hfind : findUnique st (jsToLowerCase q) = some e)
    (hexp : e.expiresAt < env.now) :
    getCachedResults env st q = (none, deleteKey st (jsToLowerCase q)) ∧
    findUnique (deleteKey st (jsToLowerCase q)) (jsToLowerCase q) = none ∧
    (search env st q n).2.2.head? =
      some (NetworkEvent.fetch (searchDuckDuckGoURL q)) := by
  have h1 := getCachedResults_expired hrf hfind (Nat.le_of_lt hexp)
  refine ⟨h1, findUnique_deleteKey st _, ?_⟩
  rw [search_of_miss n (by rw [h1])]
  exact searchDuckDuckGo_trace_head env q n

/-- Witness for C4 at a store whose entry expired at 2000 ms. -/
theorem expired_entry_read_deletes_witness :
    getCachedResults envPastExpiry stCaseKey "rust" =
      (none, deleteKey stCaseKey (jsToLowerCase "rust")) ∧
    findUnique (deleteKey stCaseKey (jsToLowerCase "rust"))
      (jsToLowerCase "rust") = none ∧
    (search envPastExpiry stCaseKey "rust" 5).2.2.head? =
      some (NetworkEvent.fetch (searchDuckDuckGoURL "rust")) :=
  expired_entry_read_deletes envPastExpiry stCaseKey "rust"
    ⟨[⟨"t", "u", "s", "DuckDuckGo"⟩], 2000⟩ 5 rfl (by decide) (by decide)

/-- Store holding a live two-element entry under the key rust. -/
def stTwoResults : Store :=
  [("rust", ⟨[⟨"t1", "u1", "s1", "DuckDuckGo"⟩,
              ⟨"t2", "u2", "s2", "DuckDuckGo"⟩], 2000⟩)]

/-- C5: a live cache hit returns the stored result list exactly as
stored, for any maxResults (no truncation or re-filtering), leaves the
store unchanged and issues no provider fetch. -/
theorem cache_hit_returned_verbatim (env : Env) (st : Store) (q : String)
    (e : CacheEntry) (n : Nat)
    (hrf : env.cacheReadFails = false)
    (hfind : findUnique st (jsToLowerCase q) = some e)
    (hlive : env.now < e.expiresAt) :
    search env st q n = (e.results, st, []) := by
  have h := getCachedResults_live hrf hfind hlive
  rw [search_of_hit n (by rw [h]), h]

/-- Witness for C5: a two-element entry returned whole although
maxResults is 1, with no fetch issued. -/
theorem cache_hit_returned_verbatim_witness :
    search envCaseKey stTwoResults "RUST" 1 =
      ([⟨"t1", "u1", "s1", "DuckDuckGo"⟩, ⟨"t2", "u2", "s2", "DuckDuckGo"⟩],
       stTwoResults, []) :=
  cache_hit_returned_verbatim envCaseKey stTwoResults "RUST"
    ⟨[⟨"t1", "u1", "s1", "DuckDuckGo"⟩, ⟨"t2", "u2", "s2", "DuckDuckGo"⟩],
      2000⟩ 1 rfl (by decide) (by decide)

end WebSearchClient

end WebSearch

namespace WebSearch

namespace WebSearchClient

/-- C6: on a cache miss that reaches a successful provider fetch
(Primary or Fallback, including a fetch yielding zero results), the
store returned by search carries the upserted entry for the lower-cased
key, holding exactly the returned results with expiry equal to the
write time plus cacheExpiry, which is 24 hours in milliseconds; the
upsert fully replaces any previous entry for that key. -/
theorem successful_fetch_written_through (env : Env) (st : Store)
    (q : String) (n : Nat)
    (hmiss : (getCachedResults env st q).1 = none)
    (hwf : env.cacheWriteFails = false)
    (_hok : (∃ rs, searchDuckDuckGoBody env q n = Except.ok rs) ∨
      (∃ rs, fallbackSearchBody env q n = Except.ok rs)) :
    (search env st q n).2.1 =
      upsert (getCachedResults env st q).2 (jsToLowerCase q)
        ⟨(search env st q n).1, env.now + cacheExpiry⟩ ∧
    findUnique (search env st q n).2.1 (jsToLowerCase q) =
      some ⟨(search env st q n).1, env.now + cacheExpiry⟩ ∧
    cacheExpiry = 24 * 60 * 60 * 1000 := by
  have hcr : cacheResults env (getCachedResults env st q).2 q
      (searchDuckDuckGo env q n).1 =
      upsert (getCachedResults env st q).2 (jsToLowerCase q)
        ⟨(searchDuckDuckGo env q n).1, env.now + cacheExpiry⟩ := by
    rw [cacheResults, if_neg (by simp [hwf])]
  rw [search_of_miss n hmiss]
  dsimp only
  rw [hcr]
  exact ⟨rfl, findUnique_upsert _ _ _, rfl⟩

/-- Witness for C6: a successful primary fetch is written through. -/
theorem successful_fetch_written_through_witness :
    (search envGoodBlock [] "rust" 5).2.1 =
      upsert (getCachedResults envGoodBlock [] "rust").2
        (jsToLowerCase "rust")
        ⟨(search envGoodBlock [] "rust" 5).1, envGoodBlock.now + cacheExpiry⟩ ∧
    findUnique (search envGoodBlock [] "rust" 5).2.1 (jsToLowerCase "rust") =
      some ⟨(search envGoodBlock [] "rust" 5).1,
        envGoodBlock.now + cacheExpiry⟩ ∧
    cacheExpiry = 24 * 60 * 60 * 1000 :=
  successful_fetch_written_through envGoodBlock [] "rust" 5 rfl rfl
    (Or.inl ⟨[⟨"t", "u", "s", "DuckDuckGo"⟩], rfl⟩)

/-- Environment whose every fetch yields a non-success status carrying
one qualifying block. -/
def envStatusDown : Env :=
  ⟨0, fun _ => FetchOutcome.response false [⟨"t", some "u", "s"⟩], false, false⟩

/-- Environment whose every fetch succeeds with one block that
qualifies for no extractor (blank title and snippet). -/
def envEmptyParse : Env :=
  ⟨0, fun _ => FetchOutcome.response true [⟨"", some "u", ""⟩], false, false⟩

/-- C7 counterexample: for the Fallback provider a non-success HTTP
status does not fail with an error signal distinguishable from a normal
return: the call returns the empty sequence normally, exactly as a
successful parse with zero qualifying blocks does. -/
theorem fallback_status_no_signal_cex :
    envStatusDown.fetchOutcome (fallbackSearchURL "q" 5) =
      FetchOutcome.response false [⟨"t", some "u", "s"⟩] ∧
    fallbackSearchBody envStatusDown "q" 5 = Except.ok [] ∧
    fallbackSearchBody envEmptyParse "q" 5 = Except.ok [] :=
  ⟨rfl, rfl, rfl⟩

/-- C7 (amended): the Primary client fails with a single error signal
on transport failure or non-success status, and that signal is caught
inside the Primary method itself, which invokes the Fallback; the
Fallback client converts transport failure, non-success status and
parse exceptions (a throwing decode during extraction) into a normal
empty-sequence return, indistinguishable from a parse with zero
qualifying blocks; for both providers a parse completing with zero
qualifying blocks is not an error and yields the empty sequence. -/
theorem provider_failure_model :
    (∀ (env : Env) (q : String) (n : Nat) (blocks : List Block),
      (env.fetchOutcome (searchDuckDuckGoURL q) = FetchOutcome.transportError ∨
       env.fetchOutcome (searchDuckDuckGoURL q) =
         FetchOutcome.response false blocks) →
      searchDuckDuckGoBody env q n = Except.error () ∧
      searchDuckDuckGo env q n =
        ((fallbackSearch env q n).1,
         NetworkEvent.fetch (searchDuckDuckGoURL q) ::
           (fallbackSearch env q n).2)) ∧
    (∀ (env : Env) (q : String) (n : Nat) (blocks : List Block),
      (env.fetchOutcome (fallbackSearchURL q n) = FetchOutcome.transportError ∨
       env.fetchOutcome (fallbackSearchURL q n) =
         FetchOutcome.response false blocks) →
      fallbackSearch env q n =
        ([], [NetworkEvent.fetch (fallbackSearchURL q n)])) ∧
    (∀ (env : Env) (q : String) (n : Nat),
      fallbackSearchBody env q n = Except.error () →
      fallbackSearch env q n =
        ([], [NetworkEvent.fetch (fallbackSearchURL q n)])) ∧
    (∀ (env : Env) (q : String) (n : Nat) (blocks : List Block),
      env.fetchOutcome (searchDuckDuckGoURL q) =
        FetchOutcome.response true blocks →
      (∀ b ∈ blocks, ddgProcessBlock b = none) →
      searchDuckDuckGoBody env q n = Except.ok []) ∧
    (∀ (env : Env) (q : String) (n : Nat) (blocks : List Block),
      env.fetchOutcome (fallbackSearchURL q n) =
        FetchOutcome.response true blocks →
      (∀ b ∈ blocks, googleProcessBlock b = Except.ok none) →
      fallbackSearchBody env q n = Except.ok []) := by
  refine ⟨?_, ?_, ?_, ?_, ?_⟩
  · intro env q n blocks h
    have hbody : searchDuckDuckGoBody env q n = Except.error () := by
      rcases h with h | h <;> rw [searchDuckDuckGoBody, h] <;> rfl
    refine ⟨hbody, ?_⟩
    rw [searchDuckDuckGo, hbody]
  · intro env q n blocks h
    rcases h with h | h <;> rw [fallbackSearch, fallbackSearchBody, h] <;> rfl
  · intro env q n h
    rw [fallbackSearch, h]
  · intro env q n blocks h hall
    rw [searchDuckDuckGoBody, h]
    dsimp only
    rw [ddgLoop_all_skipped n blocks hall]
    rfl
  · intro env q n blocks h hall
    rw [fallbackSearchBody, h]
    dsimp only
    rw [googleLoop_all_skipped n blocks 0 [] hall]
    rfl

/-- Environment whose every fetch succeeds with one qualifying block
whose href is a redirect wrapper carrying a malformed percent escape,
so the decode throws during the fallback parse. -/
def envParseThrow : Env :=
  ⟨0, fun _ => FetchOutcome.response true
    [⟨"t", some "/url?q=%ZZ&x", "s"⟩], false, false⟩

/-- Witness for C7 (amended) at concrete failing environments,
including a parse that throws during decoding. -/
theorem provider_failure_model_witness :
    searchDuckDuckGoBody envStatusDown "q" 5 = Except.error () ∧
    fallbackSearch envBothFail "q" 5 =
      ([], [NetworkEvent.fetch (fallbackSearchURL "q" 5)]) ∧
    fallbackSearch envParseThrow "q" 5 =
      ([], [NetworkEvent.fetch (fallbackSearchURL "q" 5)]) ∧
    fallbackSearchBody envEmptyParse "q" 5 = Except.ok [] :=
  ⟨(provider_failure_model.1 envStatusDown "q" 5 [⟨"t", some "u", "s"⟩]
      (Or.inr rfl)).1,
   provider_failure_model.2.1 envBothFail "q" 5 [] (Or.inl rfl),
   provider_failure_model.2.2.1 envParseThrow "q" 5 rfl,
   provider_failure_model.2.2.2.2 envEmptyParse "q" 5 [⟨"", some "u", ""⟩]
     rfl (by intro b hb; rw [List.mem_singleton] at hb; subst hb; rfl)⟩

/-- C8 counterexample: the Fallback URL embeds the ampersand of the
query verbatim instead of percent-encoding the query into the
parameter. -/
theorem fallback_query_not_encoded_cex :
    fallbackSearchURL "a&b" 5 = "https://www.google.com/search?q=a&b&num=5" ∧
    encodeURIComponent "a&b" = "a%26b" ∧
    fallbackSearchURL "a&b" 5 ≠
      "https://www.google.com/search?q=" ++ encodeURIComponent "a&b" ++
        "&num=5" := by decide

/-- C8 (amended): only the Primary provider percent-encodes the full
query into its URL parameter (every character of the encoded query is
unreserved, a percent sign, or a hexadecimal digit); the Fallback
provider only replaces spaces by plus signs and embeds every other
character of the query verbatim, together with a num parameter. -/
theorem url_building_per_provider (q : String) (n : Nat) (c : Char) :
    searchDuckDuckGoURL q =
      "https://html.duckduckgo.com/html/?q=" ++ encodeURIComponent q ∧
    (c ∈ (encodeURIComponent q).data →
      isURIUnreserved c = true ∨ c = '%' ∨ isHexDigit c = true) ∧
    fallbackSearchURL q n =
      "https://www.google.com/search?q=" ++ plusJoin q ++ "&num=" ++
        toString n ∧
    (plusJoin q).data = q.data.map (fun d => if d == ' ' then '+' else d) ∧
    (c ∈ q.data → ¬c = ' ' → c ∈ (plusJoin q).data) := by
  refine ⟨rfl, encodeURIComponent_chars q c, rfl, rfl, ?_⟩
  intro hc hcs
  rw [plusJoin]
  exact List.mem_map.mpr ⟨c, hc, by simp [hcs]⟩

/-- Witness for C8 (amended): the ampersand of the query survives
verbatim in the Fallback URL. -/
theorem url_building_per_provider_witness :
    ('&' ∈ ("a&b" : String).data ∧ ¬('&' = ' ')) ∧
    '&' ∈ (plusJoin "a&b").data :=
  ⟨⟨by decide, by decide⟩,
   (url_building_per_provider "a&b" 5 '&').2.2.2.2 (by decide) (by decide)⟩

end WebSearchClient

end WebSearch

namespace WebSearch

namespace WebSearchClient

/-- Environment whose every fetch succeeds with one block carrying a
protocol-relative href. -/
def envProtocolRelative : Env :=
  ⟨0, fun _ => FetchOutcome.response true
    [⟨"t", some "//example.com/x", "s"⟩], false, false⟩

/-- C9 counterexample: the Fallback provider stores a protocol-relative
href unchanged, so a raw protocol-relative URL appears in the returned
results, contradicting the claim that every extracted href beginning
with a double slash is rewritten to https. -/
theorem protocol_relative_raw_cex :
    jsStartsWith "//example.com/x" "//" = true ∧
    fallbackSearchBody envProtocolRelative "q" 5 =
      Except.ok [⟨"t", "//example.com/x", "s", "Google"⟩] :=
  ⟨rfl, rfl⟩

/-- C9 (amended): URL normalization is applied per provider, not to
every extracted result: the Primary rewrites a protocol-relative href
to https but stores a redirect-wrapper href unchanged, while the
Fallback unwraps a /url?q= redirect-wrapper href to its percent-decoded
target but stores a protocol-relative href unchanged. -/
theorem url_normalization_per_provider :
    (∀ (b : Block) (u : String), b.hrefAttr = some u →
      jsStartsWith u "//" = true →
      jsTrim b.titleText ≠ "" → jsTrim b.snippetText ≠ "" →
      ddgProcessBlock b = some ⟨jsTrim b.titleText, "https:" ++ u,
        jsTrim b.snippetText, "DuckDuckGo"⟩) ∧
    (∀ (b : Block) (target rest : List Char) (decoded : String),
      b.hrefAttr = some (String.mk ("/url?q=".data ++ (target ++ '&' :: rest))) →
      target ≠ [] → (∀ c ∈ target, c ≠ '&') →
      decodeURIComponent (String.mk target) = some decoded →
      jsTrim b.titleText ≠ "" → jsTrim b.snippetText ≠ "" →
      googleProcessBlock b = Except.ok (some ⟨jsTrim b.titleText, decoded,
        jsTrim b.snippetText, "Google"⟩)) ∧
    ddgProcessBlock ⟨"t", some "/url?q=https%3A%2F%2Fx.org&sa=U", "s"⟩ =
      some ⟨"t", "/url?q=https%3A%2F%2Fx.org&sa=U", "s", "DuckDuckGo"⟩ ∧
    googleProcessBlock ⟨"t", some "//example.com/x", "s"⟩ =
      Except.ok (some ⟨"t", "//example.com/x", "s", "Google"⟩) := by
  refine ⟨?_, ?_, by decide, rfl⟩
  · intro b u hu hsw ht hs
    have hune : u ≠ "" := startsWith_slashslash_ne_empty hsw
    simp only [ddgProcessBlock, hu, Option.getD_some]
    rw [if_pos ⟨ht, hune, hs⟩, if_pos hsw]
  · intro b target rest decoded hu hne hamp hdec ht hs
    have hhne : String.mk ("/url?q=".data ++ (target ++ '&' :: rest)) ≠ "" :=
      mk_ne_empty_of_ne_nil (by simp)
    simp only [googleProcessBlock, hu, Option.getD_some]
    rw [if_pos ⟨ht, hhne, hs⟩, googleCleanUrl_wrapper hne hamp hdec]

/-- Witness for C9 (amended) at concrete blocks for both providers. -/
theorem url_normalization_per_provider_witness :
    ddgProcessBlock ⟨"t", some "//example.com/x", "s"⟩ =
      some ⟨jsTrim "t", "https:" ++ "//example.com/x", jsTrim "s",
        "DuckDuckGo"⟩ ∧
    googleProcessBlock
      ⟨"t", some (String.mk ("/url?q=".data ++ (['h', 'i'] ++ '&' :: ['s', 'a']))),
        "s"⟩ =
      Except.ok (some ⟨jsTrim "t", "hi", jsTrim "s", "Google"⟩) :=
  ⟨url_normalization_per_provider.1 ⟨"t", some "//example.com/x", "s"⟩
     "//example.com/x" rfl (by decide) (by decide) (by decide),
   url_normalization_per_provider.2.1
     ⟨"t", some (String.mk ("/url?q=".data ++ (['h', 'i'] ++ '&' :: ['s', 'a']))),
       "s"⟩
     ['h', 'i'] ['s', 'a'] "hi" rfl (by decide) (by decide) (by decide)
     (by decide) (by decide)⟩

/-- C10: every result produced by a fresh provider fetch, through the
Primary path (including its internal fallback) or through the Fallback
client directly, has a non-empty title, a non-empty url and a non-empty
snippet. -/
theorem fresh_results_fields_nonempty (env : Env) (q : String) (n : Nat)
    (r : SearchResult) :
    (r ∈ (searchDuckDuckGo env q n).1 →
      r.title ≠ "" ∧ r.url ≠ "" ∧ r.snippet ≠ "") ∧
    (r ∈ (fallbackSearch env q n).1 →
      r.title ≠ "" ∧ r.url ≠ "" ∧ r.snippet ≠ "") :=
  ⟨mem_searchDuckDuckGo_fields, mem_fallbackSearch_fields⟩

/-- Witness for C10 at a concrete successful fetch. -/
theorem fresh_results_fields_nonempty_witness :
    (⟨"t", "u", "s", "DuckDuckGo"⟩ : SearchResult).title ≠ "" ∧
    (⟨"t", "u", "s", "DuckDuckGo"⟩ : SearchResult).url ≠ "" ∧
    (⟨"t", "u", "s", "DuckDuckGo"⟩ : SearchResult).snippet ≠ "" :=
  (fresh_results_fields_nonempty envGoodBlock "q" 5
    ⟨"t", "u", "s", "DuckDuckGo"⟩).1 (by decide)

end WebSearchClient

end WebSearch
